import Mathlib

/-!
Verification development for the ibf forecast pipeline.

Shallow embedding of the Python sources under src/ into Lean 4:

* Python float arithmetic on values that stay exactly representable is
  modelled over the rationals; transcendental helpers (exp, log, sqrt and
  the wet-bulb bisection in the snow module) are modelled exactly over the
  real numbers.
* Python round (round-half-to-even, aka banker rounding) is modelled by
  pyRound / pyRoundTo below; int() truncation toward zero by pyIntTrunc.
* Python dicts are modelled as association lists with unique keys; dict
  equality is extensional (lookup equality), matching the == semantics.
* Fallible code paths (None results, NaN results, raised-and-caught
  exceptions that the callers fold into a null value) are modelled with
  Option.
-/

/-- Python round() with no ndigits argument: round half to even, returning
an integer. -/
def pyRound (q : ℚ) : ℤ :=
  if q - (⌊q⌋ : ℚ) < 1/2 then ⌊q⌋
  else if 1/2 < q - (⌊q⌋ : ℚ) then ⌊q⌋ + 1
  else if ⌊q⌋ % 2 = 0 then ⌊q⌋ else ⌊q⌋ + 1

/-- Python round(x, n) for n ≥ 0: round half to even at the n-th decimal. -/
def pyRoundTo (q : ℚ) (n : ℕ) : ℚ :=
  (pyRound (q * (10 : ℚ) ^ n) : ℚ) / (10 : ℚ) ^ n

/-- Python int() applied to a float: truncation toward zero. -/
def pyIntTrunc (q : ℚ) : ℤ :=
  if 0 ≤ q then ⌊q⌋ else ⌈q⌉

/-- pyRound only takes the two values floor q and floor q + 1. -/
theorem pyRound_eq_floor_or_succ (q : ℚ) :
    pyRound q = ⌊q⌋ ∨ pyRound q = ⌊q⌋ + 1 := by
  unfold pyRound
  split_ifs <;> simp

/-- Bounds on pyRound from strict bounds on the argument. -/
theorem pyRound_bounds {q : ℚ} {a b : ℤ} (ha : (a : ℚ) ≤ q) (hb : q < (b : ℚ)) :
    a ≤ pyRound q ∧ pyRound q ≤ b := by
  have hfl : a ≤ ⌊q⌋ := Int.le_floor.mpr ha
  have hfu : ⌊q⌋ < b := Int.floor_lt.mpr hb
  rcases pyRound_eq_floor_or_succ q with h | h <;> rw [h] <;> omega

/-!
## Ensemble thinning — src/ibf/src/ibf/api/thin.py

The day/hour/member data model (§3 of the spec).  MemberRecord fields follow
_build_member_record in src/src/ibf/pipeline/dataset.py.
-/

/-- MemberRecord: one (hour, member) data record, all units normalized. -/
structure MemberRec where
  temperature : ℚ
  precipitation : ℚ
  snowfall : ℚ
  weather : String
  cloud_cover : Option ℤ
  wind_direction : String
  wind_speed : ℚ
  wind_gust : ℚ
  snow_level : Option ℚ
  pop : Option ℤ
  deriving DecidableEq, Repr

/-- Hour block: local hour key (modelled as the hour number; the source uses
the zero-padded string HH:00, whose lexicographic order equals numeric order)
and the dict of member id → MemberRecord, as an association list. -/
structure HourBlock where
  hour : ℕ
  ensemble_members : List (String × MemberRec)
  deriving DecidableEq, Repr

/-- Day: date key (modelled as a day index; the source uses the ISO string
YYYY-MM-DD, whose lexicographic order equals chronological order), the
human day label, and the ordered hour blocks. -/
structure Day where
  date : ℤ
  dayofweek : String
  hours : List HourBlock
  deriving DecidableEq, Repr

/-- MemberSeries from thin.py: aligned temperature and precipitation series
for one member. -/
structure MemberSeries where
  temperature : List ℚ
  precipitation : List ℚ
  deriving DecidableEq, Repr

/-- One step of the setdefault/append accumulation of _flatten_members:
append the values to the series of member m, creating it at the end when
absent (Python dict insertion order). -/
def insertMemberValue (acc : List (String × MemberSeries)) (m : String) (t p : ℚ) :
    List (String × MemberSeries) :=
  match acc with
  | [] => [(m, ⟨[t], [p]⟩)]
  | (k, s) :: rest =>
    if k = m then (k, ⟨s.temperature ++ [t], s.precipitation ++ [p]⟩) :: rest
    else (k, s) :: insertMemberValue rest m t p

/-- Accumulation of one hour block into the member dict (the innermost loop
of _flatten_members). -/
def flattenHour (acc : List (String × MemberSeries)) (hour : HourBlock) :
    List (String × MemberSeries) :=
  hour.ensemble_members.foldl
    (fun acc mp => insertMemberValue acc mp.1 mp.2.temperature mp.2.precipitation) acc

/-- Accumulation of one day into the member dict (the middle loop of
_flatten_members). -/
def flattenDay (acc : List (String × MemberSeries)) (day : Day) :
    List (String × MemberSeries) :=
  day.hours.foldl flattenHour acc

/-- _flatten_members: collapse the day/hour structure into per-member series. -/
def flattenMembers (ensemble_days : List Day) : List (String × MemberSeries) :=
  ensemble_days.foldl flattenDay []

/-- min of a list with the Python min() semantics on a nonempty list (the
source only calls it on nonempty lists; the empty case is unreachable). -/
def listMin (l : List ℚ) : ℚ :=
  match l with
  | [] => 0
  | x :: xs => xs.foldl min x

/-- max of a list with the Python max() semantics on a nonempty list. -/
def listMax (l : List ℚ) : ℚ :=
  match l with
  | [] => 0
  | x :: xs => xs.foldl max x

/-- normalize closure in _run_selection: min-max normalization of a series. -/
def normalizeSeries (series : List ℚ) (min_value max_value : ℚ) : List ℚ :=
  if max_value = min_value then List.replicate series.length 0
  else series.map (fun value => (value - min_value) / (max_value - min_value))

/-- rms closure in _run_selection: root mean square of element-wise
differences (math.sqrt modelled by Real.sqrt). -/
noncomputable def rmsDist (a b : List ℚ) : ℝ :=
  if a = [] ∨ b = [] then 0
  else
    let diffs := (a.zip b).map (fun xy => ((xy.1 - xy.2) ^ 2 : ℚ))
    if diffs = [] then 0
    else Real.sqrt ((diffs.sum : ℚ) / (diffs.length : ℚ))

/-- Weighted candidate-to-selected distance used in the greedy loop. -/
noncomputable def candidateScore (normalized : List (String × MemberSeries))
    (weight_temp weight_precip : ℝ) (candidate existing : String) : ℝ :=
  let cs := ((normalized.lookup candidate).getD ⟨[], []⟩)
  let es := ((normalized.lookup existing).getD ⟨[], []⟩)
  weight_temp * rmsDist cs.temperature es.temperature +
    weight_precip * rmsDist cs.precipitation es.precipitation

/-- Average of the weighted distances of a candidate to every selected
member (the avg_distance value of the inner loop). -/
noncomputable def avgDistance (normalized : List (String × MemberSeries))
    (weight_temp weight_precip : ℝ) (selected : List String) (candidate : String) : ℝ :=
  let distances := selected.map (candidateScore normalized weight_temp weight_precip candidate)
  if distances = [] then 0 else distances.sum / (distances.length : ℝ)

-- Inner argmax of the greedy loop: scan the remaining candidates keeping
-- the one with the strictly largest average distance (the source starts from
-- best_distance = -inf, so the first candidate always replaces the initial
-- state; ties keep the earlier candidate).
open Classical in
noncomputable def bestCandidate (normalized : List (String × MemberSeries))
    (weight_temp weight_precip : ℝ) (selected remaining : List String) :
    Option String :=
  remaining.foldl
    (fun best candidate =>
      let avg := avgDistance normalized weight_temp weight_precip selected candidate
      match best with
      | none => some (candidate, avg)
      | some bd => if bd.2 < avg then some (candidate, avg) else some bd)
    none
    |>.map Prod.fst

/-- The while loop of _run_selection, with fuel: each iteration appends the
best remaining candidate.  The loop runs while the selected count is below
thin_select and candidates remain; thin_select is enough fuel because each
iteration grows the selected list. -/
noncomputable def selectLoop (normalized : List (String × MemberSeries))
    (weight_temp weight_precip : ℝ) (thin_select : ℕ) :
    List String → List String → ℕ → List String
  | selected, _, 0 => selected
  | selected, remaining, fuel + 1 =>
    if selected.length < thin_select ∧ remaining ≠ [] then
      match bestCandidate normalized weight_temp weight_precip selected remaining with
      | none => selected
      | some best =>
        selectLoop normalized weight_temp weight_precip thin_select
          (selected ++ [best]) (remaining.erase best) fuel
    else selected

/-- Keys of an association list (Python dict key view, in insertion order). -/
def dictKeys {β : Type} (d : List (String × β)) : List String := d.map Prod.fst

/-- _run_selection from thin.py: pick the most diverse ensemble members.
Python iterates the remaining candidates as a hash set; the iteration order
is modelled here as the insertion order of the flattened member dict minus
the selected members (the properties proved below do not depend on it). -/
noncomputable def runSelection (members : List (String × MemberSeries))
    (thin_select : ℕ) (weight_temp weight_precip : ℝ) : List String :=
  if members.length ≤ thin_select then dictKeys members
  else
    let all_temps := members.foldr (fun ms acc => ms.2.temperature ++ acc) []
    let all_precip := members.foldr (fun ms acc => ms.2.precipitation ++ acc) []
    let min_temp := listMin all_temps
    let max_temp := listMax all_temps
    let min_precip := listMin all_precip
    let max_precip := listMax all_precip
    let normalized := members.map (fun ms =>
      (ms.1, (⟨normalizeSeries ms.2.temperature min_temp max_temp,
              normalizeSeries ms.2.precipitation min_precip max_precip⟩ : MemberSeries)))
    let selected :=
      if "member00" ∈ dictKeys members then ["member00"]
      else [((dictKeys members).mergeSort (fun a b => a ≤ b)).headD ""]
    let remaining := (dictKeys members).filter (fun k => ¬ k ∈ selected)
    selectLoop normalized weight_temp weight_precip thin_select selected remaining thin_select

/-- The dict comprehension filtering an hour member dict down to the
selected members, in selected-key iteration order. -/
def filterMembersDict (selected : List String) (members : List (String × MemberRec)) :
    List (String × MemberRec) :=
  selected.filterMap (fun key => (members.lookup key).map (fun v => (key, v)))

/-- select_members from thin.py: thin the ensemble to the selected members. -/
noncomputable def select_members (ensemble_days : List Day) (thin_select : ℕ)
    (weight_temp weight_precip : ℝ) : List Day :=
  let member_series := flattenMembers ensemble_days
  if member_series = [] then ensemble_days
  else
    let selected := runSelection member_series thin_select weight_temp weight_precip
    ensemble_days.map (fun day =>
      { day with
        hours := day.hours.map (fun hour =>
          { hour := hour.hour
            ensemble_members := filterMembersDict selected hour.ensemble_members }) })

/-!
## Lemmas about the thinning embedding
-/

/-- Keys after one insertMemberValue step. -/
theorem mem_dictKeys_insertMemberValue (acc : List (String × MemberSeries))
    (m x : String) (t p : ℚ) :
    x ∈ dictKeys (insertMemberValue acc m t p) ↔ x ∈ dictKeys acc ∨ x = m := by
  induction acc with
  | nil => simp [insertMemberValue, dictKeys]
  | cons hd tl ih =>
    obtain ⟨k, s⟩ := hd
    by_cases hk : k = m
    · subst hk
      simp [insertMemberValue, dictKeys]
      tauto
    · simp only [insertMemberValue, if_neg hk, dictKeys, List.map_cons, List.mem_cons]
      rw [show dictKeys (insertMemberValue tl m t p) =
        (insertMemberValue tl m t p).map Prod.fst from rfl] at ih
      rw [show dictKeys tl = tl.map Prod.fst from rfl] at ih
      tauto

/-- Keys of the member-list fold inside flattenHour. -/
theorem mem_dictKeys_foldl_insert (l : List (String × MemberRec))
    (acc : List (String × MemberSeries)) (x : String) :
    x ∈ dictKeys (l.foldl
      (fun acc mp => insertMemberValue acc mp.1 mp.2.temperature mp.2.precipitation) acc) ↔
      x ∈ dictKeys acc ∨ x ∈ dictKeys l := by
  induction l generalizing acc with
  | nil => simp [dictKeys]
  | cons hd tl ih =>
    simp only [List.foldl_cons]
    rw [ih, mem_dictKeys_insertMemberValue]
    simp [dictKeys]
    tauto

/-- Keys after folding one hour block. -/
theorem mem_dictKeys_flattenHour (acc : List (String × MemberSeries))
    (h : HourBlock) (x : String) :
    x ∈ dictKeys (flattenHour acc h) ↔
      x ∈ dictKeys acc ∨ x ∈ dictKeys h.ensemble_members := by
  exact mem_dictKeys_foldl_insert h.ensemble_members acc x

/-- Keys of the hour-list fold inside flattenDay. -/
theorem mem_dictKeys_foldl_flattenHour (l : List HourBlock)
    (acc : List (String × MemberSeries)) (x : String) :
    x ∈ dictKeys (l.foldl flattenHour acc) ↔
      x ∈ dictKeys acc ∨ ∃ h ∈ l, x ∈ dictKeys h.ensemble_members := by
  induction l generalizing acc with
  | nil => simp
  | cons hd tl ih =>
    simp only [List.foldl_cons]
    rw [ih, mem_dictKeys_flattenHour]
    simp only [List.mem_cons]
    constructor
    · rintro ((ha | hh) | ⟨h, hmem, hx⟩)
      · exact Or.inl ha
      · exact Or.inr ⟨hd, Or.inl rfl, hh⟩
      · exact Or.inr ⟨h, Or.inr hmem, hx⟩
    · rintro (ha | ⟨h, (rfl | hmem), hx⟩)
      · exact Or.inl (Or.inl ha)
      · exact Or.inl (Or.inr hx)
      · exact Or.inr ⟨h, hmem, hx⟩

/-- Keys after folding one day. -/
theorem mem_dictKeys_flattenDay (acc : List (String × MemberSeries))
    (d : Day) (x : String) :
    x ∈ dictKeys (flattenDay acc d) ↔
      x ∈ dictKeys acc ∨ ∃ h ∈ d.hours, x ∈ dictKeys h.ensemble_members := by
  exact mem_dictKeys_foldl_flattenHour d.hours acc x

/-- Keys of the day-list fold of flattenMembers. -/
theorem mem_dictKeys_foldl_flattenDay (l : List Day)
    (acc : List (String × MemberSeries)) (x : String) :
    x ∈ dictKeys (l.foldl flattenDay acc) ↔
      x ∈ dictKeys acc ∨ ∃ d ∈ l, ∃ h ∈ d.hours, x ∈ dictKeys h.ensemble_members := by
  induction l generalizing acc with
  | nil => simp
  | cons hd tl ih =>
    simp only [List.foldl_cons]
    rw [ih, mem_dictKeys_flattenDay]
    simp only [List.mem_cons]
    constructor
    · rintro ((ha | hh) | ⟨d, hmem, hx⟩)
      · exact Or.inl ha
      · exact Or.inr ⟨hd, Or.inl rfl, hh⟩
      · exact Or.inr ⟨d, Or.inr hmem, hx⟩
    · rintro (ha | ⟨d, (rfl | hmem), hx⟩)
      · exact Or.inl (Or.inl ha)
      · exact Or.inl (Or.inr hx)
      · exact Or.inr ⟨d, hmem, hx⟩

/-- Characterization of the flattened member keys: exactly the member ids
appearing in some hour of some day. -/
theorem mem_dictKeys_flattenMembers (ds : List Day) (x : String) :
    x ∈ dictKeys (flattenMembers ds) ↔
      ∃ d ∈ ds, ∃ h ∈ d.hours, x ∈ dictKeys h.ensemble_members := by
  rw [show flattenMembers ds = ds.foldl flattenDay [] from rfl,
    mem_dictKeys_foldl_flattenDay]
  simp [dictKeys]

/-- lookup succeeds exactly on the dict keys. -/
theorem lookup_isSome_iff_mem_dictKeys {β : Type} (l : List (String × β)) (x : String) :
    (l.lookup x).isSome = true ↔ x ∈ dictKeys l := by
  induction l with
  | nil => simp [List.lookup, dictKeys]
  | cons hd tl ih =>
    obtain ⟨k, v⟩ := hd
    by_cases hk : x = k
    · subst hk
      simp [List.lookup, dictKeys]
    · rw [List.lookup]
      have hbeq : (x == k) = false := by simp [hk]
      rw [hbeq]
      simp only [dictKeys, List.map_cons, List.mem_cons]
      rw [show dictKeys tl = tl.map Prod.fst from rfl] at ih
      constructor
      · intro hs
        exact Or.inr (ih.mp hs)
      · rintro (h | h)
        · exact absurd h hk
        · exact ih.mpr h

/-- The filtered member dict looks up selected keys in the original dict. -/
theorem lookup_filterMembersDict (sel : List String)
    (mems : List (String × MemberRec)) (x : String) :
    (filterMembersDict sel mems).lookup x =
      if x ∈ sel then mems.lookup x else none := by
  induction sel with
  | nil => simp [filterMembersDict]
  | cons k rest ih =>
    rw [show filterMembersDict (k :: rest) mems =
      ((mems.lookup k).map (fun v => (k, v))).toList ++ filterMembersDict rest mems by
        simp [filterMembersDict, List.filterMap_cons]
        cases mems.lookup k <;> simp]
    cases hmk : mems.lookup k with
    | none =>
      show (filterMembersDict rest mems).lookup x = _
      rw [ih]
      by_cases hx : x = k
      · subst hx
        simp only [List.mem_cons, true_or, if_pos]
        split_ifs with hr
        · rfl
        · exact hmk.symm
      · simp [List.mem_cons, hx]
    | some v =>
      show List.lookup x ((k, v) :: filterMembersDict rest mems) = _
      by_cases hx : x = k
      · subst hx
        rw [List.lookup]
        simp [hmk]
      · rw [List.lookup]
        have hbeq : (x == k) = false := by simp [hx]
        rw [hbeq]
        rw [ih]
        simp [List.mem_cons, hx]

/-- Keys of the filtered member dict. -/
theorem mem_dictKeys_filterMembersDict (sel : List String)
    (mems : List (String × MemberRec)) (x : String) :
    x ∈ dictKeys (filterMembersDict sel mems) ↔
      x ∈ sel ∧ (mems.lookup x).isSome = true := by
  rw [← lookup_isSome_iff_mem_dictKeys, lookup_filterMembersDict]
  split_ifs with hs <;> simp [hs]

/-- The selection loop preserves the head of the running selection. -/
theorem selectLoop_head? (normalized : List (String × MemberSeries))
    (wT wP : ℝ) (k : ℕ) (fuel : ℕ) :
    ∀ (sel rem : List String), sel ≠ [] →
      (selectLoop normalized wT wP k sel rem fuel).head? = sel.head? := by
  induction fuel with
  | zero => intro sel rem _; rfl
  | succ n ih =>
    intro sel rem hne
    rw [selectLoop]
    split_ifs with hc
    · cases hb : bestCandidate normalized wT wP sel rem with
      | none => rfl
      | some best =>
        have hne2 : sel ++ [best] ≠ [] := by simp
        rw [ih (sel ++ [best]) (rem.erase best) hne2]
        cases sel with
        | nil => exact absurd rfl hne
        | cons a t => rfl
    · rfl

/-- The selection loop keeps every already selected member. -/
theorem selectLoop_mem (normalized : List (String × MemberSeries))
    (wT wP : ℝ) (k : ℕ) (fuel : ℕ) :
    ∀ (sel rem : List String) (x : String), x ∈ sel →
      x ∈ selectLoop normalized wT wP k sel rem fuel := by
  induction fuel with
  | zero => intro sel rem x hx; exact hx
  | succ n ih =>
    intro sel rem x hx
    rw [selectLoop]
    split_ifs with hc
    · cases hb : bestCandidate normalized wT wP sel rem with
      | none => exact hx
      | some best =>
        exact ih (sel ++ [best]) (rem.erase best) x (List.mem_append_left _ hx)
    · exact hx

/-- With fewer members than the target, _run_selection returns all keys. -/
theorem runSelection_of_le (members : List (String × MemberSeries))
    (k : ℕ) (wT wP : ℝ) (h : members.length ≤ k) :
    runSelection members k wT wP = dictKeys members := by
  simp [runSelection, h]

/-- The seed of the greedy selection is its first element. -/
theorem runSelection_head?_of_lt (members : List (String × MemberSeries))
    (k : ℕ) (wT wP : ℝ) (h : k < members.length) :
    (runSelection members k wT wP).head? =
      some (if "member00" ∈ dictKeys members then "member00"
        else ((dictKeys members).mergeSort (fun a b => a ≤ b)).headD "") := by
  rw [runSelection]
  rw [if_neg (by omega)]
  split_ifs with hm
  · rw [selectLoop_head? _ _ _ _ _ _ _ (by simp)]
    rfl
  · rw [selectLoop_head? _ _ _ _ _ _ _ (by simp)]
    rfl

/-- member00 survives _run_selection whenever it is among the members. -/
theorem runSelection_mem00 (members : List (String × MemberSeries))
    (k : ℕ) (wT wP : ℝ) (h : "member00" ∈ dictKeys members) :
    "member00" ∈ runSelection members k wT wP := by
  rw [runSelection]
  split_ifs with hle
  · exact h
  · exact selectLoop_mem _ _ _ _ _ _ _ _ (by simp)

/-!
## Dataset equivalence (extensional equality of the day/hour/member maps)
-/

/-- Extensional equality of two member dicts. -/
def MembersEquiv (a b : List (String × MemberRec)) : Prop :=
  ∀ x, a.lookup x = b.lookup x

/-- Hour blocks with the same key and extensionally equal member dicts. -/
def HourEquiv (a b : HourBlock) : Prop :=
  a.hour = b.hour ∧ MembersEquiv a.ensemble_members b.ensemble_members

/-- Days with the same date fields and pairwise equivalent hours. -/
def DayEquiv (a b : Day) : Prop :=
  a.date = b.date ∧ a.dayofweek = b.dayofweek ∧ List.Forall₂ HourEquiv a.hours b.hours

/-- Pairwise equivalent datasets. -/
def DatasetEquiv (a b : List Day) : Prop := List.Forall₂ DayEquiv a b

/-- Dataset equivalence is reflexive. -/
theorem DatasetEquiv_refl (a : List Day) : DatasetEquiv a a := by
  refine List.forall₂_same.mpr (fun d _ => ⟨rfl, rfl, ?_⟩)
  exact List.forall₂_same.mpr (fun h _ => ⟨rfl, fun x => rfl⟩)

/-- Unfolding of select_members into its two branches. -/
theorem select_members_eq (ds : List Day) (k : ℕ) (wT wP : ℝ) :
    select_members ds k wT wP =
      if flattenMembers ds = [] then ds
      else ds.map (fun day =>
        { day with hours := day.hours.map (fun hour =>
            { hour := hour.hour
              ensemble_members :=
                filterMembersDict (runSelection (flattenMembers ds) k wT wP)
                  hour.ensemble_members }) }) := rfl

/-- C1: for any dataset in which member00 is present in every hour (the §3
invariant form of containing member00), select_members with any target
count k ≥ 1 yields a dataset whose every hour member map still contains
member00; moreover the greedy selection (the branch taken when the member
count exceeds k) is seeded with member00 when present, else with the
lexicographically first member key. -/
theorem select_members_preserves_member00 (ds : List Day) (k : ℕ) (wT wP : ℝ)
    (hk : 1 ≤ k)
    (hmem : ∀ d ∈ ds, ∀ h ∈ d.hours, "member00" ∈ dictKeys h.ensemble_members) :
    (∀ d ∈ select_members ds k wT wP, ∀ h ∈ d.hours,
        "member00" ∈ dictKeys h.ensemble_members) ∧
    (∀ members : List (String × MemberSeries), k < members.length →
      (runSelection members k wT wP).head? =
        some (if "member00" ∈ dictKeys members then "member00"
          else ((dictKeys members).mergeSort (fun a b => a ≤ b)).headD "")) := by
  constructor
  · intro d hd h hh
    rw [select_members_eq] at hd
    by_cases hflat : flattenMembers ds = []
    · rw [if_pos hflat] at hd
      exact hmem d hd h hh
    · rw [if_neg hflat] at hd
      obtain ⟨d0, hd0, rfl⟩ := List.mem_map.mp hd
      simp only [List.mem_map] at hh
      obtain ⟨h0, hh0, rfl⟩ := hh
      rw [mem_dictKeys_filterMembersDict]
      constructor
      · apply runSelection_mem00
        obtain ⟨e, he⟩ := List.exists_mem_of_ne_nil _ hflat
        have he1 : e.1 ∈ dictKeys (flattenMembers ds) :=
          List.mem_map_of_mem Prod.fst he
        obtain ⟨d1, hd1, h1, hh1, _⟩ := (mem_dictKeys_flattenMembers ds e.1).mp he1
        exact (mem_dictKeys_flattenMembers ds "member00").mpr
          ⟨d1, hd1, h1, hh1, hmem d1 hd1 h1 hh1⟩
      · exact (lookup_isSome_iff_mem_dictKeys _ _).mpr (hmem d0 hd0 h0 hh0)
  · intro members hlt
    exact runSelection_head?_of_lt members k wT wP hlt

/-- Sample member records used by the concrete witnesses. -/
def recA : MemberRec :=
  ⟨10, 0, 0, "clear sky", some 20, "northerly", 5, 0, none, none⟩

/-- Second sample member record. -/
def recB : MemberRec :=
  ⟨12, 1, 0, "light rain", some 80, "southerly", 10, 0, none, none⟩

/-- Third sample member record. -/
def recC : MemberRec :=
  ⟨14, 2, 0, "moderate rain", some 90, "westerly", 20, 30, none, none⟩

/-- Concrete three-member, two-hour dataset for the C1 witness. -/
def dsC1 : List Day :=
  [⟨0, "Today, Friday",
    [⟨9, [("member00", recA), ("member01", recB), ("member02", recC)]⟩,
     ⟨10, [("member00", recB), ("member01", recC), ("member02", recA)]⟩]⟩]

/-- Witness for C1 at dsC1 with k = 1. -/
theorem select_members_preserves_member00_witness :
    ((1 : ℕ) ≤ 1 ∧
      (∀ d ∈ dsC1, ∀ h ∈ d.hours, "member00" ∈ dictKeys h.ensemble_members)) ∧
    (∀ d ∈ select_members dsC1 1 1 1, ∀ h ∈ d.hours,
        "member00" ∈ dictKeys h.ensemble_members) := by
  have hm : ∀ d ∈ dsC1, ∀ h ∈ d.hours, "member00" ∈ dictKeys h.ensemble_members := by
    decide
  exact ⟨⟨le_refl 1, hm⟩,
    (select_members_preserves_member00 dsC1 1 1 1 (le_refl 1) hm).1⟩

/-- C4: when the dataset already has at most k distinct members (in
particular exactly k), select_members returns an equivalent dataset: every
day keeps its date fields and hour keys, and every hour member map is
extensionally unchanged. -/
theorem select_members_equiv_of_le (ds : List Day) (k : ℕ) (wT wP : ℝ)
    (hcount : (flattenMembers ds).length ≤ k) :
    DatasetEquiv ds (select_members ds k wT wP) := by
  rw [select_members_eq]
  split_ifs with hflat
  · exact DatasetEquiv_refl ds
  · unfold DatasetEquiv
    rw [List.forall₂_map_right_iff]
    refine List.forall₂_same.mpr (fun d hd => ?_)
    refine ⟨rfl, rfl, ?_⟩
    rw [List.forall₂_map_right_iff]
    refine List.forall₂_same.mpr (fun h hh => ?_)
    refine ⟨rfl, fun x => ?_⟩
    show h.ensemble_members.lookup x = _
    rw [lookup_filterMembersDict, runSelection_of_le _ _ _ _ hcount]
    split_ifs with hx
    · rfl
    · cases hlx : h.ensemble_members.lookup x with
      | none => rfl
      | some v =>
        exfalso
        apply hx
        refine (mem_dictKeys_flattenMembers ds x).mpr ⟨d, hd, h, hh, ?_⟩
        rw [← lookup_isSome_iff_mem_dictKeys]
        simp [hlx]

/-- Concrete two-member dataset for the C4 witness. -/
def dsC4 : List Day :=
  [⟨0, "Today, Friday", [⟨9, [("member00", recA), ("member01", recB)]⟩]⟩]

/-- Witness for C4 at dsC4 with k = 2 = current member count. -/
theorem select_members_equiv_of_le_witness :
    (flattenMembers dsC4).length ≤ 2 ∧
      DatasetEquiv dsC4 (select_members dsC4 2 1 1) :=
  ⟨by decide, select_members_equiv_of_le dsC4 2 1 1 (by decide)⟩

/-!
## Formatter range-summary helpers — src/src/ibf/llm/formatter.py
-/

/-- Python str.lower on one character (ASCII model, enough for the unit and
model tokens the source lowercases). -/
def pyLowerChar (c : Char) : Char :=
  if 65 ≤ c.toNat ∧ c.toNat ≤ 90 then Char.ofNat (c.toNat + 32) else c

/-- Python str.lower (ASCII model). -/
def pyLower (s : String) : String := ⟨s.data.map pyLowerChar⟩

/-- Python str.strip whitespace test (the common whitespace characters). -/
def isPySpace (c : Char) : Bool :=
  c = ' ' ∨ c = '\t' ∨ c = '\n' ∨ c = '\r'

/-- Python str.strip with no arguments. -/
def pyStrip (s : String) : String :=
  ⟨((s.data.dropWhile isPySpace).reverse.dropWhile isPySpace).reverse⟩

/-- _format_unit_label: normalize a display unit token. -/
def format_unit_label (unit : String) : String :=
  let normalized := pyLower (pyStrip unit)
  if normalized = "inch" ∨ normalized = "in" then "in" else normalized

/-- _jeffreys_probability: rounded probability percentage using the
Jeffreys prior, clamped to [0, 100]. -/
def jeffreys_probability (occurrences total : ℤ) : ℤ :=
  if total ≤ 0 then 0
  else
    let prob : ℚ := ((occurrences : ℚ) + 0.5) / ((total : ℚ) + 1)
    max 0 (min 100 (pyRound (prob * 20) * 5))

/-- _normalize_daily_total: totals used for RANGE SUMMARY calculations (the
numeric path; non-numeric inputs are out of this model). -/
def normalize_daily_total (value : ℚ) (unit : String) (kind : String) : ℚ :=
  if value ≤ 0 then 0
  else if kind = "rainfall" ∧ unit = "mm" then
    if value < 0.25 then 0
    else if value < 1 then (pyRound (value * 2) : ℚ) / 2
    else (pyRound value : ℚ)
  else pyRoundTo value 1

/-- np.interp on the grid xp = [0, 1, ..., n-1]: clamped piecewise-linear
interpolation of the fp values. -/
def npInterp (fp : List ℚ) (x : ℚ) : ℚ :=
  if fp = [] then 0
  else if x ≤ 0 then fp.headD 0
  else if ((fp.length : ℚ) - 1) ≤ x then fp.getLastD 0
  else
    let k : ℕ := ⌊x⌋.toNat
    let fk := fp.getD k 0
    let fk1 := fp.getD (k + 1) 0
    fk + (x - (k : ℚ)) * (fk1 - fk)

/-- estimate_percentiles: lower and upper percentile estimates by linear
interpolation on the sorted values; none models the (nan, nan) result for
fewer than two values. -/
def estimate_percentiles (values : List ℚ) (lower_fraction : ℚ) :
    Option (ℚ × ℚ) :=
  if values.length < 2 then none
  else
    let sorted := values.mergeSort (fun a b => a ≤ b)
    let lower_position := lower_fraction * ((values.length : ℚ) - 1)
    let upper_position := (1 - lower_fraction) * ((values.length : ℚ) - 1)
    some (npInterp sorted lower_position, npInterp sorted upper_position)

/-- Rendering of a float with one decimal digit (the f-string .1f format,
applied by the source only to values already rounded to one decimal). -/
def formatFixed1 (q : ℚ) : String :=
  let n := pyRound (q * 10)
  let sign := if n < 0 then "-" else ""
  let m := n.natAbs
  sign ++ toString (m / 10) ++ "." ++ toString (m % 10)

/-- precipitation_or_snowfall_likely: probability and likely range lines
for precipitation or snowfall. -/
def precipitation_or_snowfall_likely (label : String) (values : List ℚ)
    (unit : String) : String :=
  if values = [] then ""
  else
    let positive := values.filter (fun v => 0 < v)
    let total_members : ℤ := values.length
    if positive = [] then ""
    else
      let probability := jeffreys_probability positive.length total_members
      let head := "Estimated probability of " ++ label ++ ": " ++
        toString probability ++ "%"
      match estimate_percentiles positive 0.20 with
      | none => head
      | some pc =>
        let unit_label := format_unit_label unit
        if label = "snowfall" ∧ unit_label = "cm" then
          if pc.2 < 1 then head ++ "\nLikely " ++ label ++ " less than 1 " ++ unit_label
          else
            let lower := pyRound pc.1
            let upper := pyRound pc.2
            if lower ≤ 0 then
              head ++ "\nLikely " ++ label ++ " up to " ++ toString upper ++ " " ++ unit_label
            else if lower = upper then
              head ++ "\nLikely " ++ label ++ " around " ++ toString lower ++ " " ++ unit_label
            else
              head ++ "\nLikely " ++ label ++ " " ++ toString lower ++ " " ++ unit_label ++
                " to " ++ toString upper ++ " " ++ unit_label
        else
          let precision : ℕ := if unit = "mm" then 0 else 1
          let lower := pyRoundTo pc.1 precision
          let upper := pyRoundTo pc.2 precision
          let fmtv := fun (value : ℚ) =>
            if precision = 0 then toString (pyIntTrunc value) else formatFixed1 value
          if lower = upper then
            head ++ "\nLikely " ++ label ++ " around " ++ fmtv lower ++ " " ++ unit_label
          else
            head ++ "\nLikely " ++ label ++ " " ++ fmtv lower ++ " " ++ unit_label ++
              " to " ++ fmtv upper ++ " " ++ unit_label

/-- The daily precipitation chain of format_location_dataset: each member
daily rainfall total is normalized by _normalize_daily_total(·, unit,
kind=rainfall) into daily_precip, and calculate_range_summary then emits
precipitation_or_snowfall_likely("precipitation", daily_precip, unit). -/
def range_summary_precip_line (memberDailyTotals : List ℚ) (precip_unit : String) :
    String :=
  precipitation_or_snowfall_likely "precipitation"
    (memberDailyTotals.map (fun t => normalize_daily_total t precip_unit "rainfall"))
    precip_unit

set_option maxRecDepth 8000

/-- Evaluation of the S4 scenario: the range-summary precipitation lines
produced for per-member daily rainfall totals 0.2, 0.3, 0.4, 0.8, 0.9 mm. -/
theorem rangeSummary_S4_eval :
    range_summary_precip_line [1/5, 3/10, 2/5, 4/5, 9/10] "mm" =
      "Estimated probability of precipitation: 75%\nLikely precipitation 0 mm to 1 mm" := by
  have hmap : (([1/5, 3/10, 2/5, 4/5, 9/10] : List ℚ).map
      (fun t => normalize_daily_total t "mm" "rainfall")) = [0, 1/2, 1/2, 1, 1] := by
    have p1 : pyRound (3/5) = 1 := by unfold pyRound; norm_num
    have p2 : pyRound (4/5) = 1 := by unfold pyRound; norm_num
    have p3 : pyRound (8/5) = 2 := by unfold pyRound; norm_num
    have p4 : pyRound (9/5) = 2 := by unfold pyRound; norm_num
    unfold normalize_daily_total
    norm_num [p1, p2, p3, p4]
  have hfil : (([0, 1/2, 1/2, 1, 1] : List ℚ).filter (fun v => 0 < v)) = [1/2, 1/2, 1, 1] := by
    norm_num [List.filter]
  have hpct : estimate_percentiles [1/2, 1/2, 1, 1] (1/5) = some (1/2, 1) := by
    rw [estimate_percentiles]
    norm_num
    rw [List.mergeSort_eq_self (by norm_num)]
    unfold npInterp
    simp only [List.cons_ne_nil, if_false]
    norm_num [List.getD, Int.toNat]
  have hjp : jeffreys_probability 4 5 = 75 := by
    unfold jeffreys_probability pyRound
    norm_num
  have hlow : pyRoundTo (1/2) 0 = 0 := by unfold pyRoundTo pyRound; norm_num
  have hup : pyRoundTo 1 0 = 1 := by unfold pyRoundTo pyRound; norm_num
  have hit0 : pyIntTrunc 0 = 0 := by unfold pyIntTrunc; norm_num
  have hit1 : pyIntTrunc 1 = 1 := by unfold pyIntTrunc; norm_num
  rw [range_summary_precip_line, hmap, precipitation_or_snowfall_likely]
  norm_num [hfil]
  simp only [hpct, hjp, hlow, hup, hit0, hit1]
  decide

/-- C2 counterexample: for per-member daily rainfall totals 0.2, 0.3, 0.4,
0.8, 0.9 mm (in mm), the range summary contains neither the line "Likely
rainfall 0.2 mm to 0.9 mm" nor the line "Estimated probability of
precipitation: 100%" claimed by scenario S4. -/
theorem range_summary_S4_counterexample :
    ¬ ("Likely rainfall 0.2 mm to 0.9 mm".data <:+:
        (range_summary_precip_line [1/5, 3/10, 2/5, 4/5, 9/10] "mm").data) ∧
    ¬ ("Estimated probability of precipitation: 100%".data <:+:
        (range_summary_precip_line [1/5, 3/10, 2/5, 4/5, 9/10] "mm").data) := by
  rw [rangeSummary_S4_eval]
  constructor <;> decide

/-- C2 (amended): for per-member daily rainfall totals 0.2, 0.3, 0.4, 0.8,
0.9 mm, the totals are first normalized by _normalize_daily_total (giving
0, 0.5, 0.5, 1, 1), and the range summary emits the label "precipitation"
(not "rainfall"): its lines are "Estimated probability of precipitation:
75%" (Jeffreys rounding of 4 positives out of 5) and "Likely precipitation
0 mm to 1 mm" (20th/80th percentile linear interpolation of the positive
normalized totals, rounded to whole mm). -/
theorem range_summary_S4_amended :
    range_summary_precip_line [1/5, 3/10, 2/5, 4/5, 9/10] "mm" =
      "Estimated probability of precipitation: 75%\nLikely precipitation 0 mm to 1 mm" ∧
    ("Estimated probability of precipitation: 75%".data <:+:
        (range_summary_precip_line [1/5, 3/10, 2/5, 4/5, 9/10] "mm").data) ∧
    ("Likely precipitation 0 mm to 1 mm".data <:+:
        (range_summary_precip_line [1/5, 3/10, 2/5, 4/5, 9/10] "mm").data) := by
  refine ⟨rangeSummary_S4_eval, ?_, ?_⟩ <;> (rw [rangeSummary_S4_eval]; decide)

/-- C3: for any occurrences and total with total ≥ 1 and
0 ≤ occurrences ≤ total, the Jeffreys probability helper returns an integer
in [0, 100] that is a multiple of 5 and equals
round(((occurrences + 0.5) / (total + 1)) * 20) * 5. -/
theorem jeffreys_probability_bounds (occurrences total : ℤ)
    (h1 : 1 ≤ total) (h2 : 0 ≤ occurrences) (h3 : occurrences ≤ total) :
    0 ≤ jeffreys_probability occurrences total ∧
    jeffreys_probability occurrences total ≤ 100 ∧
    5 ∣ jeffreys_probability occurrences total ∧
    jeffreys_probability occurrences total =
      pyRound ((((occurrences : ℚ) + 0.5) / ((total : ℚ) + 1)) * 20) * 5 := by
  have hden : (0 : ℚ) < (total : ℚ) + 1 := by
    have : (1 : ℚ) ≤ (total : ℚ) := by exact_mod_cast h1
    linarith
  have hnum : (0 : ℚ) < (occurrences : ℚ) + 0.5 := by
    have : (0 : ℚ) ≤ (occurrences : ℚ) := by exact_mod_cast h2
    norm_num
    linarith
  have hratio : ((occurrences : ℚ) + 0.5) / ((total : ℚ) + 1) < 1 := by
    rw [div_lt_one hden]
    have : (occurrences : ℚ) ≤ (total : ℚ) := by exact_mod_cast h3
    norm_num
    linarith
  have hq0 : (0 : ℚ) < (((occurrences : ℚ) + 0.5) / ((total : ℚ) + 1)) * 20 :=
    mul_pos (div_pos hnum hden) (by norm_num)
  have hq20 : (((occurrences : ℚ) + 0.5) / ((total : ℚ) + 1)) * 20 < 20 := by
    have := mul_lt_mul_of_pos_right hratio (show (0:ℚ) < 20 by norm_num)
    linarith
  obtain ⟨hb1, hb2⟩ := pyRound_bounds
    (q := (((occurrences : ℚ) + 0.5) / ((total : ℚ) + 1)) * 20) (a := 0) (b := 20)
    (by exact_mod_cast hq0.le) (by exact_mod_cast hq20)
  have hval : jeffreys_probability occurrences total =
      pyRound ((((occurrences : ℚ) + 0.5) / ((total : ℚ) + 1)) * 20) * 5 := by
    unfold jeffreys_probability
    rw [if_neg (by omega)]
    show max 0 (min 100 (pyRound ((((occurrences : ℚ) + 0.5) / ((total : ℚ) + 1)) * 20) * 5)) = _
    omega
  refine ⟨by omega, by omega, ?_, hval⟩
  rw [hval]
  exact dvd_mul_left 5 _

/-- Witness for C3 at occurrences = 4, total = 5. -/
theorem jeffreys_probability_bounds_witness :
    ((1 : ℤ) ≤ 5 ∧ (0 : ℤ) ≤ 4 ∧ (4 : ℤ) ≤ 5) ∧
    (0 ≤ jeffreys_probability 4 5 ∧
      jeffreys_probability 4 5 ≤ 100 ∧
      5 ∣ jeffreys_probability 4 5 ∧
      jeffreys_probability 4 5 =
        pyRound (((((4 : ℤ) : ℚ) + 0.5) / (((5 : ℤ) : ℚ) + 1)) * 20) * 5) :=
  ⟨⟨by norm_num, by norm_num, by norm_num⟩,
    jeffreys_probability_bounds 4 5 (by norm_num) (by norm_num) (by norm_num)⟩

/-!
## Meteorological helpers — src/ibf/src/ibf/util/meteo.py
-/

/-- The _WMO_CODES table. -/
def wmoCodeTable : List (ℤ × String) :=
  [(0, "clear sky"), (1, "mainly clear"), (2, "partly cloudy"), (3, "overcast"),
   (45, "fog"), (48, "depositing rime fog"), (51, "light rain"), (53, "moderate rain"),
   (55, "moderate rain"), (56, "light freezing drizzle"), (57, "dense freezing drizzle"),
   (61, "light rain"), (63, "moderate rain"), (65, "heavy rain"),
   (66, "light freezing rain"), (67, "heavy freezing rain"), (71, "light snow"),
   (73, "moderate snow"), (75, "heavy snow"), (77, "snow grains"),
   (80, "light rain showers"), (81, "moderate rain showers"), (82, "heavy rain showers"),
   (85, "light snow showers"), (86, "heavy snow showers"), (95, "thunderstorm"),
   (96, "thunderstorm with slight hail"), (99, "thunderstorm with heavy hail")]

/-- Input domain of wmo_weather: an integer code, None, or a value whose
int() conversion raises (a non-numeric string).  A float input truncates
through int() to the integer case, with the raw value interpolated into the
fallback text; the claims concern the integer codes. -/
inductive WmoInput where
  | intCode (n : ℤ)
  | null
  | nonNumeric (s : String)

/-- wmo_weather: decode a WMO weather code. -/
def wmo_weather : WmoInput → String
  | .null => "unknown"
  | .nonNumeric _ => "unknown"
  | .intCode n => (wmoCodeTable.lookup n).getD ("Invalid code: " ++ toString n)

/-- C6 counterexample: the integer code 4 is not in the WMO table, and
wmo_weather returns the literal "Invalid code: 4" for it, not "unknown". -/
theorem wmo_weather_unknown_counterexample :
    wmoCodeTable.lookup 4 = none ∧
    wmo_weather (.intCode 4) = "Invalid code: 4" ∧
    wmo_weather (.intCode 4) ≠ "unknown" := by
  refine ⟨by decide, by decide, by decide⟩

/-- C6 (amended): wmo_weather maps codes through the WMO table; an integer
code missing from the table yields the literal "Invalid code: n" (not
"unknown"), while None and non-numeric inputs yield "unknown". -/
theorem wmo_weather_amended :
    (∀ n : ℤ, wmoCodeTable.lookup n = none →
        wmo_weather (.intCode n) = "Invalid code: " ++ toString n) ∧
    (∀ n d, wmoCodeTable.lookup n = some d → wmo_weather (.intCode n) = d) ∧
    wmo_weather .null = "unknown" ∧
    (∀ s, wmo_weather (.nonNumeric s) = "unknown") := by
  refine ⟨fun n h => ?_, fun n d h => ?_, rfl, fun s => rfl⟩ <;>
    simp [wmo_weather, h]

/-- Witness for C6 amended: code 42 is unknown and yields its fallback
text; code 95 is in the table and yields thunderstorm. -/
theorem wmo_weather_amended_witness :
    (wmoCodeTable.lookup 42 = none ∧
      wmo_weather (.intCode 42) = "Invalid code: " ++ toString (42 : ℤ)) ∧
    (wmoCodeTable.lookup 95 = some "thunderstorm" ∧
      wmo_weather (.intCode 95) = "thunderstorm") :=
  ⟨⟨by decide, wmo_weather_amended.1 42 (by decide)⟩,
    ⟨by decide, wmo_weather_amended.2.1 95 "thunderstorm" (by decide)⟩⟩

/-- The _DIRECTIONS eight-wind vocabulary. -/
def DIRECTIONS : List String :=
  ["northerly", "northeasterly", "easterly", "southeasterly",
   "southerly", "southwesterly", "westerly", "northwesterly"]

/-- Input domain of degrees_to_compass: a (finite) numeric value, None, or
a string whose float() conversion raises. -/
inductive WindDirInput where
  | num (q : ℚ)
  | null
  | nonNumericStr (s : String)

/-- degrees_to_compass: eight-point compass word from degrees; "variable"
when float() raises.  The list indexing is total because the index is taken
modulo 8 (the empty-default branch of getD is unreachable). -/
def degrees_to_compass : WindDirInput → String
  | .num q => DIRECTIONS.getD (pyIntTrunc ((q + 22.5) / 45) % 8).toNat ""
  | .null => "variable"
  | .nonNumericStr _ => "variable"

/-- C10: degrees_to_compass is total and closed over the eight-word
vocabulary for every finite numeric input (negative values and values of
360 or more included), and returns "variable" for None and for a
non-numeric string. -/
theorem degrees_to_compass_total :
    (∀ q : ℚ, degrees_to_compass (.num q) ∈ DIRECTIONS) ∧
    degrees_to_compass .null = "variable" ∧
    (∀ s, degrees_to_compass (.nonNumericStr s) = "variable") := by
  refine ⟨fun q => ?_, rfl, fun s => rfl⟩
  show DIRECTIONS.getD (pyIntTrunc ((q + 22.5) / 45) % 8).toNat "" ∈ DIRECTIONS
  have h0 : 0 ≤ pyIntTrunc ((q + 22.5) / 45) % 8 :=
    Int.emod_nonneg _ (by norm_num)
  have h8 : pyIntTrunc ((q + 22.5) / 45) % 8 < 8 :=
    Int.emod_lt_of_pos _ (by norm_num)
  have hi : (pyIntTrunc ((q + 22.5) / 45) % 8).toNat < 8 := by omega
  generalize (pyIntTrunc ((q + 22.5) / 45) % 8).toNat = i at hi
  interval_cases i <;> decide

/-!
## Filesystem helpers — src/src/ibf/util/filesystem.py

Paths are modelled as their resolved component lists (the model receives
what Path(...).expanduser().resolve() returns; resolution itself is an OS
call outside the embedding).  The filesystem is the list of existing files,
and unlink removes its target; FileNotFoundError and OSError both return
False with no change.
-/

/-- _is_relative_to: path.relative_to(base) succeeds exactly when the base
components lead the path components. -/
def is_relative_to (path base : List String) : Bool :=
  base.isPrefixOf path

/-- safe_unlink over an explicit filesystem state: (returned bool, new
filesystem). -/
def safe_unlink (fs : List (List String)) (path base_dir : List String)
    (dry_run : Bool) : Bool × List (List String) :=
  if ¬ is_relative_to path base_dir then (false, fs)
  else if dry_run then (true, fs)
  else if path ∈ fs then (true, fs.erase path)
  else (false, fs)

/-- C9: safe_unlink refuses to delete any path not contained in the base
directory (False, filesystem unchanged), and in dry-run mode deletes
nothing even inside the base, returning True for an in-base target. -/
theorem safe_unlink_safety (fs : List (List String)) (path base : List String)
    (dry : Bool) :
    (¬ is_relative_to path base → safe_unlink fs path base dry = (false, fs)) ∧
    (dry = true → (safe_unlink fs path base dry).2 = fs) ∧
    (dry = true → is_relative_to path base →
      safe_unlink fs path base dry = (true, fs)) := by
  refine ⟨fun h => ?_, fun hd => ?_, fun hd hr => ?_⟩
  · unfold safe_unlink
    rw [if_pos h]
  · unfold safe_unlink
    split_ifs <;> simp_all
  · unfold safe_unlink
    rw [if_neg (by simp [hr]), if_pos hd]

/-- Witness for C9: a path outside the base is refused; an in-base path in
dry-run mode returns True with the filesystem unchanged. -/
theorem safe_unlink_safety_witness :
    safe_unlink [["home", "user", "cache", "a.json"]] ["etc", "passwd"]
        ["home", "user", "cache"] false =
      (false, [["home", "user", "cache", "a.json"]]) ∧
    safe_unlink [["home", "user", "cache", "a.json"]]
        ["home", "user", "cache", "a.json"] ["home", "user", "cache"] true =
      (true, [["home", "user", "cache", "a.json"]]) :=
  ⟨(safe_unlink_safety _ _ _ _).1 (by decide),
    (safe_unlink_safety _ _ _ _).2.2 rfl (by decide)⟩

/-!
## NWP client cache key — src/src/ibf/api/open_meteo.py

hashlib.sha1 is embedded below over byte lists (Nat values below 256, with
word arithmetic mod 2^32); the cache key takes the first 8 hex digits of
the digest of the hourly field string.
-/

/-- 32-bit left rotation. -/
def rotl32 (n x : ℕ) : ℕ :=
  (((x <<< n) % 2 ^ 32) ||| (x >>> (32 - n))) % 2 ^ 32

/-- Big-endian byte rendering of n into k bytes. -/
def toBytesBE (k n : ℕ) : List ℕ :=
  (List.range k).map (fun i => (n >>> (8 * (k - 1 - i))) % 256)

/-- SHA-1 message padding: 0x80, zeros to 56 mod 64, 8-byte bit length. -/
def sha1Pad (msg : List ℕ) : List ℕ :=
  let len := msg.length
  let padZeros := (119 - len % 64) % 64
  msg ++ [128] ++ List.replicate padZeros 0 ++ toBytesBE 8 (len * 8)

/-- Big-endian 32-bit words from a byte list (length a multiple of 4). -/
def bytesToWordsBE : List ℕ → List ℕ
  | b0 :: b1 :: b2 :: b3 :: rest =>
    (((b0 * 256 + b1) * 256 + b2) * 256 + b3) :: bytesToWordsBE rest
  | _ => []

/-- SHA-1 message-schedule extension: append fuel more words. -/
def sha1Extend (w : List ℕ) : ℕ → List ℕ
  | 0 => w
  | fuel + 1 =>
    sha1Extend
      (w ++ [rotl32 1 ((((w.getD (w.length - 3) 0) ^^^ (w.getD (w.length - 8) 0)) ^^^
        (w.getD (w.length - 14) 0)) ^^^ (w.getD (w.length - 16) 0))]) fuel

/-- One SHA-1 compression round. -/
def sha1Round (st : ℕ × ℕ × ℕ × ℕ × ℕ) (i : ℕ) (wi : ℕ) : ℕ × ℕ × ℕ × ℕ × ℕ :=
  let a := st.1
  let b := st.2.1
  let c := st.2.2.1
  let d := st.2.2.2.1
  let e := st.2.2.2.2
  let f :=
    if i < 20 then (b &&& c) ||| ((b ^^^ (2 ^ 32 - 1)) &&& d)
    else if i < 40 then (b ^^^ c) ^^^ d
    else if i < 60 then ((b &&& c) ||| (b &&& d)) ||| (c &&& d)
    else (b ^^^ c) ^^^ d
  let k :=
    if i < 20 then 1518500249
    else if i < 40 then 1859775393
    else if i < 60 then 2400959708
    else 3395469782
  let temp := (rotl32 5 a + f + e + k + wi) % 2 ^ 32
  (temp, a, rotl32 30 b, c, d)

/-- SHA-1 compression of one 64-byte chunk into the running state. -/
def sha1Chunk (h : ℕ × ℕ × ℕ × ℕ × ℕ) (chunk : List ℕ) : ℕ × ℕ × ℕ × ℕ × ℕ :=
  let w := sha1Extend (bytesToWordsBE chunk) 64
  let f := (List.range 80).foldl (fun st i => sha1Round st i (w.getD i 0)) h
  ((h.1 + f.1) % 2 ^ 32, (h.2.1 + f.2.1) % 2 ^ 32, (h.2.2.1 + f.2.2.1) % 2 ^ 32,
    (h.2.2.2.1 + f.2.2.2.1) % 2 ^ 32, (h.2.2.2.2 + f.2.2.2.2) % 2 ^ 32)

/-- Split a byte list into 64-byte chunks. -/
def chunks64 (l : List ℕ) : List (List ℕ) :=
  if h : l = [] then []
  else l.take 64 :: chunks64 (l.drop 64)
termination_by l.length
decreasing_by
  simp only [List.length_drop]
  have : l.length ≠ 0 := fun hz => h (List.eq_nil_of_length_eq_zero hz)
  omega

/-- Lowercase hex digit. -/
def hexDigitChar (n : ℕ) : Char :=
  if n < 10 then Char.ofNat (48 + n) else Char.ofNat (87 + n)

/-- Eight lowercase hex digits of a 32-bit word, most significant first. -/
def toHex8 (n : ℕ) : String :=
  ⟨(List.range 8).map (fun i => hexDigitChar ((n >>> (4 * (7 - i))) % 16))⟩

/-- hashlib.sha1(...).hexdigest() of the UTF-8 bytes of a string. -/
def sha1Hex (s : String) : String :=
  let bytes := (s.toUTF8.toList.map (fun b => b.toNat))
  let padded := sha1Pad bytes
  let d := (chunks64 padded).foldl sha1Chunk
    (1732584193, 4023233417, 2562383102, 271733878, 3285377520)
  toHex8 d.1 ++ toHex8 d.2.1 ++ toHex8 d.2.2.1 ++ toHex8 d.2.2.2.1 ++ toHex8 d.2.2.2.2

/-- Model kind routing token (the ModelKind Literal of the source). -/
inductive ModelKind where
  | ensemble
  | deterministic
  deriving DecidableEq, Repr

/-- The base hourly field set HOURLY_FIELDS_BASE. -/
def HOURLY_FIELDS_BASE : String :=
  "temperature_2m,dewpoint_2m,precipitation,snowfall,weather_code,cloud_cover,wind_speed_10m,wind_direction_10m,wind_gusts_10m"

/-- The enriched deterministic field set HOURLY_FIELDS_DETERMINISTIC. -/
def HOURLY_FIELDS_DETERMINISTIC : String :=
  HOURLY_FIELDS_BASE ++ ",precipitation_probability,freezing_level_height"

/-- ForecastRequest (the dataclass fields; units are normalized to the
standard values by post-init, and the cache key uses the standard unit
constants directly). -/
structure ForecastRequest where
  latitude : ℚ
  longitude : ℚ
  timezone : String
  forecast_days : ℤ
  temperature_unit : String
  windspeed_unit : String
  precipitation_unit : String
  models : Option String
  model_kind : ModelKind
  hourly_fields : Option String
  cache_ttl_minutes : ℤ
  cache_dir : String

/-- _hourly_fields_for: the explicit override when truthy (a nonempty
string), else the base or deterministic set by model kind. -/
def hourly_fields_for (r : ForecastRequest) : String :=
  match r.hourly_fields with
  | some f =>
    if f ≠ "" then f
    else if r.model_kind = ModelKind.ensemble then HOURLY_FIELDS_BASE
    else HOURLY_FIELDS_DETERMINISTIC
  | none =>
    if r.model_kind = ModelKind.ensemble then HOURLY_FIELDS_BASE
    else HOURLY_FIELDS_DETERMINISTIC

/-- Python str.replace over the one-character pattern comma. -/
def pyReplaceCommaPlus (s : String) : String :=
  ⟨s.data.map (fun c => if c = ',' then '+' else c)⟩

/-- The truthiness fallback (request.models or "auto"). -/
def modelsOrAuto (m : Option String) : String :=
  match m with
  | none => "auto"
  | some s => if s = "" then "auto" else s

/-- Decimal-free rendering of a rational used where the source interpolates
the rounded float: the key equality depends only on the value rendered. -/
def ratToString (q : ℚ) : String := toString q

/-- _cache_key: the stable filename fragment of a forecast request. -/
def cache_key (r : ForecastRequest) : String :=
  let lat_suffix := if 0 ≤ r.latitude then "N" else "S"
  let lon_suffix := if 0 ≤ r.longitude then "E" else "W"
  let hourly_fields := hourly_fields_for r
  let fields_sig : String := ⟨(sha1Hex hourly_fields).data.take 8⟩
  let model_token := pyReplaceCommaPlus (pyLower (pyStrip (modelsOrAuto r.models)))
  let kind_token := if r.model_kind = ModelKind.ensemble then "ens" else "det"
  ratToString |pyRoundTo r.latitude 2| ++ lat_suffix ++ "_" ++
    ratToString |pyRoundTo r.longitude 2| ++ lon_suffix ++ "_" ++
    toString r.forecast_days ++ "_" ++ "celsius" ++ "_" ++
    "mm" ++ "_" ++ "kph" ++ "_" ++
    kind_token ++ "_" ++ model_token ++ "_" ++ fields_sig

/-- C8: the cache key is a function only of the rounded coordinates (with
their hemisphere signs), the forecast day count, the model kind, the model
id and the hourly field list; in particular two requests differing only in
the third decimal of a coordinate (when rounding agrees), in timezone, in
cache TTL or in cache directory produce identical keys. -/
theorem cache_key_function_of_rounded (r1 r2 : ForecastRequest)
    (hlat : pyRoundTo r1.latitude 2 = pyRoundTo r2.latitude 2)
    (hlatS : 0 ≤ r1.latitude ↔ 0 ≤ r2.latitude)
    (hlon : pyRoundTo r1.longitude 2 = pyRoundTo r2.longitude 2)
    (hlonS : 0 ≤ r1.longitude ↔ 0 ≤ r2.longitude)
    (hdays : r1.forecast_days = r2.forecast_days)
    (hkind : r1.model_kind = r2.model_kind)
    (hmodels : r1.models = r2.models)
    (hfields : hourly_fields_for r1 = hourly_fields_for r2) :
    cache_key r1 = cache_key r2 := by
  have hs1 : (if 0 ≤ r1.latitude then "N" else "S") =
      (if 0 ≤ r2.latitude then "N" else "S") := by
    by_cases h : 0 ≤ r1.latitude
    · rw [if_pos h, if_pos (hlatS.mp h)]
    · rw [if_neg h, if_neg (fun hc => h (hlatS.mpr hc))]
  have hs2 : (if 0 ≤ r1.longitude then "E" else "W") =
      (if 0 ≤ r2.longitude then "E" else "W") := by
    by_cases h : 0 ≤ r1.longitude
    · rw [if_pos h, if_pos (hlonS.mp h)]
    · rw [if_neg h, if_neg (fun hc => h (hlonS.mpr hc))]
  unfold cache_key
  simp only [hlat, hlon, hdays, hkind, hmodels, hfields, hs1, hs2]

/-- Concrete request for the C8 witness. -/
def reqC8a : ForecastRequest :=
  ⟨10.001, -33.871, "Pacific/Auckland", 4, "celsius", "kph", "mm",
    some "ecmwf_ifs025", ModelKind.ensemble, none, 60, "ibf_cache/forecasts"⟩

/-- Same rounded coordinates and model data as reqC8a, but a different
third decimal, timezone, TTL and cache directory. -/
def reqC8b : ForecastRequest :=
  ⟨10.0012, -33.8705, "UTC", 4, "celsius", "kph", "mm",
    some "ecmwf_ifs025", ModelKind.ensemble, none, 120, "other_cache"⟩

/-- Witness for C8: the two concrete requests share one cache key. -/
theorem cache_key_function_of_rounded_witness :
    cache_key reqC8a = cache_key reqC8b :=
  cache_key_function_of_rounded reqC8a reqC8b
    (by unfold reqC8a reqC8b pyRoundTo pyRound; norm_num)
    (by unfold reqC8a reqC8b; norm_num)
    (by unfold reqC8a reqC8b pyRoundTo pyRound; norm_num)
    (by unfold reqC8a reqC8b; norm_num)
    rfl rfl rfl rfl

/-!
## Dataset transformer — src/src/ibf/pipeline/dataset.py

Local timestamps in the resolved timezone are modelled as (day index,
hour, minute); the ISO date and HH:00 keys of the source are fixed-width
strings whose lexicographic order equals this numeric order.  Parsing
(_parse_timestamp) is applied before the model: an unparseable timestamp is
none and is skipped, as in the source.  _build_member_record and
_detect_members are abstracted into the recordFor function and the members
list; _classify_day into the classify function: the claims under proof do
not depend on their internals, and the theorems quantify over them.
-/

/-- A local timestamp: calendar day index, hour of day, minute. -/
structure LocalTime where
  day : ℤ
  hour : ℕ
  minute : ℕ
  deriving DecidableEq, Repr

/-- Instant of a local timestamp in minutes. -/
def LocalTime.inMinutes (t : LocalTime) : ℤ :=
  t.day * 1440 + t.hour * 60 + t.minute

/-- The timestamp filter of build_processed_days with the running index:
skip unparseable stamps, stamps more than 24 hours old, and stamps strictly
before now. -/
def survivorsAux (now : LocalTime) : List (Option LocalTime) → ℕ → List (ℕ × LocalTime)
  | [], _ => []
  | none :: rest, i => survivorsAux now rest (i + 1)
  | some dt :: rest, i =>
    if now.inMinutes - dt.inMinutes > 24 * 60 then survivorsAux now rest (i + 1)
    else if dt.inMinutes < now.inMinutes then survivorsAux now rest (i + 1)
    else (i, dt) :: survivorsAux now rest (i + 1)

/-- The surviving (index, timestamp) pairs of the main loop. -/
def survivors (timestamps : List (Option LocalTime)) (now : LocalTime) :
    List (ℕ × LocalTime) :=
  survivorsAux now timestamps 0

/-- Last-write-wins accumulation of the per-index member records (the
repeated processed[date][hour][member] = record assignments). -/
def lastSome {α : Type} (l : List (Option α)) : Option α :=
  l.foldl (fun acc o => match o with | some v => some v | none => acc) none

/-- The member dict of one (date, hour) cell: for each detected member,
the last non-None record among the surviving indices of that cell. -/
def hourMembers (members : List String) (recordFor : String → ℕ → Option MemberRec)
    (idxs : List ℕ) : List (String × MemberRec) :=
  members.filterMap (fun m => (lastSome (idxs.map (recordFor m))).map (fun r => (m, r)))

/-- The member dict of the (date d, hour h) cell of the processed table. -/
def cellMembers (sv : List (ℕ × LocalTime)) (members : List String)
    (recordFor : String → ℕ → Option MemberRec) (d : ℤ) (h : ℕ) :
    List (String × MemberRec) :=
  hourMembers members recordFor
    ((sv.filter (fun p => p.2.day = d ∧ p.2.hour = h)).map Prod.fst)

/-- The hour blocks of one day: sorted hour keys, empty member dicts
dropped. -/
def dayHourBlocks (sv : List (ℕ × LocalTime)) (members : List String)
    (recordFor : String → ℕ → Option MemberRec) (d : ℤ) : List HourBlock :=
  (((sv.filter (fun p => p.2.day = d)).map (fun p => p.2.hour)).dedup.mergeSort
      (fun a b => a ≤ b)).filterMap (fun h =>
    if cellMembers sv members recordFor d h = [] then none
    else some ⟨h, cellMembers sv members recordFor d h⟩)

/-- The day assembly of build_processed_days: sorted date keys, sorted hour
keys, hour blocks with nonempty member dicts, days with nonempty hour
lists. -/
def buildFinalDays (timestamps : List (Option LocalTime)) (members : List String)
    (recordFor : String → ℕ → Option MemberRec) (classify : ℤ → String)
    (now : LocalTime) : List Day :=
  let sv := survivors timestamps now
  ((sv.map (fun p => p.2.day)).dedup.mergeSort (fun a b => a ≤ b)).filterMap (fun d =>
    if dayHourBlocks sv members recordFor d = [] then none
    else some ⟨d, classify d, dayHourBlocks sv members recordFor d⟩)

/-- build_processed_days: filter and pivot the hourly arrays into days,
then thin the ensemble (select_members with the default weights). -/
noncomputable def build_processed_days (timestamps : List (Option LocalTime))
    (members : List String) (recordFor : String → ℕ → Option MemberRec)
    (classify : ℤ → String) (now : LocalTime) (thin_select : ℕ) : List Day :=
  let final_days := buildFinalDays timestamps members recordFor classify now
  if final_days = [] then []
  else select_members final_days thin_select 1 1

/-- Survivor pairs come from parsed timestamps that are neither older than
24 hours nor strictly before now. -/
theorem survivorsAux_spec (now : LocalTime) :
    ∀ (l : List (Option LocalTime)) (i : ℕ) (p : ℕ × LocalTime),
      p ∈ survivorsAux now l i →
      some p.2 ∈ l ∧ ¬ now.inMinutes - p.2.inMinutes > 24 * 60 ∧
        ¬ p.2.inMinutes < now.inMinutes := by
  intro l
  induction l with
  | nil => intro i p h; exact absurd h (by simp [survivorsAux])
  | cons hd tl ih =>
    intro i p h
    cases hd with
    | none =>
      obtain ⟨h1, h2, h3⟩ := ih (i + 1) p h
      exact ⟨List.mem_cons_of_mem _ h1, h2, h3⟩
    | some dt =>
      rw [survivorsAux] at h
      split_ifs at h with hold hpast
      · obtain ⟨h1, h2, h3⟩ := ih (i + 1) p h
        exact ⟨List.mem_cons_of_mem _ h1, h2, h3⟩
      · obtain ⟨h1, h2, h3⟩ := ih (i + 1) p h
        exact ⟨List.mem_cons_of_mem _ h1, h2, h3⟩
      · rcases List.mem_cons.mp h with hp | hp
        · subst hp
          exact ⟨List.mem_cons_self _ _, hold, hpast⟩
        · obtain ⟨h1, h2, h3⟩ := ih (i + 1) p hp
          exact ⟨List.mem_cons_of_mem _ h1, h2, h3⟩

/-- Days assembled by buildFinalDays have nonempty hour lists, and every
hour block corresponds to a surviving timestamp with that date and hour. -/
theorem buildFinalDays_spec (timestamps : List (Option LocalTime))
    (members : List String) (recordFor : String → ℕ → Option MemberRec)
    (classify : ℤ → String) (now : LocalTime) :
    ∀ d ∈ buildFinalDays timestamps members recordFor classify now,
      d.hours ≠ [] ∧
      ∀ hb ∈ d.hours, ∃ p ∈ survivors timestamps now,
        p.2.day = d.date ∧ p.2.hour = hb.hour := by
  intro d hd
  rw [buildFinalDays] at hd
  obtain ⟨d0, hd0, hsome⟩ := List.mem_filterMap.mp hd
  by_cases hblocks : dayHourBlocks (survivors timestamps now) members recordFor d0 = []
  · rw [if_pos hblocks] at hsome
    exact absurd hsome (by simp)
  · rw [if_neg hblocks, Option.some_inj] at hsome
    subst hsome
    refine ⟨hblocks, ?_⟩
    intro hb hhb
    simp only at hhb
    rw [dayHourBlocks] at hhb
    obtain ⟨h0, hh0, hbsome⟩ := List.mem_filterMap.mp hhb
    by_cases hmems : cellMembers (survivors timestamps now) members recordFor d0 h0 = []
    · rw [if_pos hmems] at hbsome
      exact absurd hbsome (by simp)
    · rw [if_neg hmems, Option.some_inj] at hbsome
      subst hbsome
      have hh1 : h0 ∈ ((survivors timestamps now).filter
          (fun p => p.2.day = d0)).map (fun p => p.2.hour) :=
        List.mem_dedup.mp (List.mem_mergeSort.mp hh0)
      obtain ⟨p, hp, hph⟩ := List.mem_map.mp hh1
      have hpd : p.2.day = d0 := by
        have := (List.mem_filter.mp hp).2
        simpa using this
      exact ⟨p, (List.mem_filter.mp hp).1, hpd, hph⟩

/-- C5: every dataset returned by build_processed_days is well formed: each
day has at least one hour block, and every hour block of every day arises
from a parsed input timestamp with that date and hour that is not strictly
before now and not older than 24 hours. -/
theorem build_processed_days_wellformed (timestamps : List (Option LocalTime))
    (members : List String) (recordFor : String → ℕ → Option MemberRec)
    (classify : ℤ → String) (now : LocalTime) (thin_select : ℕ) :
    (∀ d ∈ build_processed_days timestamps members recordFor classify now thin_select,
      d.hours ≠ []) ∧
    (∀ d ∈ build_processed_days timestamps members recordFor classify now thin_select,
      ∀ hb ∈ d.hours, ∃ dt : LocalTime, some dt ∈ timestamps ∧
        dt.day = d.date ∧ dt.hour = hb.hour ∧
        ¬ dt.inMinutes < now.inMinutes ∧
        now.inMinutes - dt.inMinutes ≤ 24 * 60) := by
  have key : ∀ d ∈ build_processed_days timestamps members recordFor classify now thin_select,
      d.hours ≠ [] ∧
      ∀ hb ∈ d.hours, ∃ dt : LocalTime, some dt ∈ timestamps ∧
        dt.day = d.date ∧ dt.hour = hb.hour ∧
        ¬ dt.inMinutes < now.inMinutes ∧
        now.inMinutes - dt.inMinutes ≤ 24 * 60 := by
    intro d hd
    rw [build_processed_days] at hd
    split_ifs at hd with hempty
    · exact absurd hd (by simp)
    · rw [select_members_eq] at hd
      have transfer : ∀ d0, (d0 ∈ buildFinalDays timestamps members recordFor classify now) →
          ∀ (dd : Day), dd.date = d0.date → dd.hours.map HourBlock.hour = d0.hours.map HourBlock.hour →
          dd.hours ≠ [] ∧
          ∀ hb ∈ dd.hours, ∃ dt : LocalTime, some dt ∈ timestamps ∧
            dt.day = dd.date ∧ dt.hour = hb.hour ∧
            ¬ dt.inMinutes < now.inMinutes ∧
            now.inMinutes - dt.inMinutes ≤ 24 * 60 := by
        intro d0 hd0 dd hdate hhours
        obtain ⟨hne, hall⟩ := buildFinalDays_spec timestamps members recordFor classify now d0 hd0
        constructor
        · intro hnil
          rw [hnil] at hhours
          exact hne (List.map_eq_nil_iff.mp hhours.symm)
        · intro hb hhb
          have : hb.hour ∈ d0.hours.map HourBlock.hour := by
            rw [← hhours]
            exact List.mem_map_of_mem _ hhb
          obtain ⟨hb0, hhb0, hbeq⟩ := List.mem_map.mp this
          obtain ⟨p, hp, hpd, hph⟩ := hall hb0 hhb0
          obtain ⟨hts, hold, hpast⟩ := survivorsAux_spec now timestamps 0 p hp
          exact ⟨p.2, hts, by rw [hpd, hdate], by rw [hph, hbeq], hpast, by omega⟩
      split_ifs at hd with hflat
      · exact transfer d hd d rfl rfl
      · obtain ⟨d0, hd0, hmap⟩ := List.mem_map.mp hd
        refine transfer d0 hd0 d ?_ ?_
        · rw [← hmap]
        · rw [← hmap]
          simp [List.map_map]
  exact ⟨fun d hd => (key d hd).1, fun d hd => (key d hd).2⟩

/-!
## Snow-level diagnostics — src/ibf/src/ibf/util/snow.py and
_estimate_snow_level in src/src/ibf/pipeline/dataset.py

Float transcendentals (math.exp, math.log, math.pow and the bisection) are
modelled exactly over ℝ; NaN results (no wet-bulb-zero crossing) are
modelled with Option, and the equal-length ValueError of the profile
arrays is folded into the same null result its caller produces for it.
Real.log is total (zero off the positive axis) where math.log would raise;
no claim under proof depends on that branch.
-/

/-- Latent heat of vaporization, linearized. -/
noncomputable def snowLv (Tk : ℝ) : ℝ := 2.501e6 - 2361.0 * (Tk - 273.15)

/-- Saturation vapor pressure over liquid water (Pa). -/
noncomputable def esat_pa (Tc : ℝ) : ℝ :=
  611.2 * Real.exp ((17.67 * Tc) / (Tc + 243.5))

/-- Dewpoint from vapor pressure. -/
noncomputable def inv_esat_to_TdC (e_pa : ℝ) : ℝ :=
  (243.5 * Real.log ((e_pa / 100) / 6.112)) /
    (17.67 - Real.log ((e_pa / 100) / 6.112))

/-- eps = Rd / Rv. -/
noncomputable def snowEps : ℝ := 287.05 / 461.5

/-- Saturation mixing ratio. -/
noncomputable def sat_mixing_ratio (p_pa Tc : ℝ) : ℝ :=
  snowEps * esat_pa Tc / (p_pa - esat_pa Tc)

/-- Mixing ratio from relative humidity. -/
noncomputable def mixing_ratio_from_rh (p_pa Tc rh_pct : ℝ) : ℝ :=
  snowEps * ((rh_pct / 100) * esat_pa Tc) / (p_pa - (rh_pct / 100) * esat_pa Tc)

/-- rh_from_T_Td: relative humidity (percent) clamped to [0, 100]. -/
noncomputable def rh_from_T_Td (Tc Tdc : ℝ) : ℝ :=
  max 0 (min 100 (100 * esat_pa Tdc / esat_pa Tc))

/-- Moist enthalpy per kg of dry air. -/
noncomputable def moist_enthalpy_per_kg_dry (Tk r : ℝ) : ℝ :=
  1004.0 * Tk + r * (1850.0 * Tk + snowLv Tk)

-- The 60-iteration bisection loop of wet_bulb_dj, with its two early
-- return conditions; falls back to the midpoint when the fuel runs out.
open Classical in
noncomputable def wbBisect (f : ℝ → ℝ) (tol : ℝ) : ℝ → ℝ → ℕ → ℝ
  | lo, hi, 0 => 0.5 * (lo + hi) - 273.15
  | lo, hi, fuel + 1 =>
    let mid := 0.5 * (lo + hi)
    if |f mid| < 1e-6 ∨ (hi - lo) < tol then mid - 273.15
    else if f mid > 0 then wbBisect f tol mid hi fuel
    else wbBisect f tol lo mid fuel

-- wet_bulb_dj: wet-bulb temperature by enthalpy-balance bisection; exact
-- at saturation (within 1e-6 of 100 percent relative humidity).
open Classical in
noncomputable def wet_bulb_dj (Tc rh_pct p_pa tol : ℝ) : ℝ :=
  let Tk := Tc + 273.15
  let r := mixing_ratio_from_rh p_pa Tc rh_pct
  let Td := inv_esat_to_TdC ((rh_pct / 100) * esat_pa Tc)
  if |rh_pct - 100| < 1e-6 then Tc
  else
    let h_parcel := moist_enthalpy_per_kg_dry Tk r
    let f := fun TwK =>
      h_parcel - moist_enthalpy_per_kg_dry TwK (sat_mixing_ratio p_pa (TwK - 273.15))
    let lo0 := Td + 273.15
    let hi0 := Tc + 273.15
    let lo := if f lo0 < 0 then max 180 (lo0 - 0.5) else lo0
    let hi := if f hi0 > 0 then hi0 + 0.5 else hi0
    wbBisect f tol lo hi 60

-- The wet-bulb-zero crossing search over consecutive (height, wet-bulb)
-- pairs sorted by height; none models the NaN no-crossing result.
open Classical in
noncomputable def crossingSearch (target : ℝ) : List (ℝ × ℝ) → Option ℝ
  | (z0, t0) :: (z1, t1) :: rest =>
    if t0 - target = 0 then some z0
    else if (t0 - target) * (t1 - target) ≤ 0 then
      some (z0 + (target - t0) * (z1 - z0) / (t1 - t0))
    else crossingSearch target ((z1, t1) :: rest)
  | _ => none

/-- The precipitation-intensity downward adjustment table. -/
noncomputable def precipAdjustment (precip_rate : Option ℝ) : ℝ :=
  match precip_rate with
  | none => 0
  | some r => if r ≥ 20 then 300 else if r ≥ 10 then 200 else if r ≥ 5 then 100 else 0

/-- The final step of estimate_snow_level_msl: when the adjustment is
applied, lower by the table value and floor at the station altitude. -/
noncomputable def snowAdjustFloor (z_station_m : ℝ) (precip_rate : Option ℝ)
    (snow_level : Option ℝ) (apply_precip_adjustment : Bool) : Option ℝ :=
  match snow_level with
  | none => none
  | some s =>
    if apply_precip_adjustment then
      some (max z_station_m (s - precipAdjustment precip_rate))
    else some s

-- estimate_snow_level_msl: wet-bulb-zero height estimate over the surface
-- value and the pressure-level profile, with the precipitation adjustment
-- floored at the station altitude.
open Classical in
noncomputable def estimate_snow_level_msl (z_station_m p_station_pa t2m_c td2m_c : ℝ)
    (pressures_hpa temps_c rhs_pct geop_heights_m : List ℝ)
    (wb_target_c : ℝ) (precip_rate : Option ℝ) (apply_precip_adjustment : Bool) :
    Option ℝ :=
  if ¬ (pressures_hpa.length = temps_c.length ∧ temps_c.length = rhs_pct.length ∧
      rhs_pct.length = geop_heights_m.length) then
    none
  else
    let rh2m := rh_from_T_Td t2m_c td2m_c
    let surfTw := wet_bulb_dj t2m_c rh2m p_station_pa 1e-3
    let prof_Tw := (temps_c.zip (rhs_pct.zip pressures_hpa)).map
      (fun x => wet_bulb_dj x.1 x.2.1 (x.2.2 * 100) 1e-3)
    let pairs := ((z_station_m :: geop_heights_m).zip (surfTw :: prof_Tw)).mergeSort
      (fun a b => a.1 ≤ b.1)
    let snow_level : Option ℝ :=
      if (pairs.headD (0, 0)).2 ≤ 0 then some (pairs.headD (0, 0)).1
      else crossingSearch wb_target_c pairs
    snowAdjustFloor z_station_m precip_rate snow_level apply_precip_adjustment

/-- The freezing/snow phenomenon codes of should_check_snow_level. -/
def freezingCodes : List ℤ := [56, 57, 66, 67, 71, 73, 75, 77, 85, 86]

/-- should_check_snow_level: precipitation falling, code not already a
snow/freezing type, temperature below 15 °C. -/
def should_check_snow_level (precipitation_mm : ℝ) (weather_code : ℤ)
    (temperature_c : ℝ) : Prop :=
  precipitation_mm > 0 ∧ weather_code ∉ freezingCodes ∧ temperature_c < 15

-- Python round() over the reals (round half to even).
open Classical in
noncomputable def pyRoundR (x : ℝ) : ℤ :=
  if x - (⌊x⌋ : ℝ) < 1/2 then ⌊x⌋
  else if 1/2 < x - (⌊x⌋ : ℝ) then ⌊x⌋ + 1
  else if ⌊x⌋ % 2 = 0 then ⌊x⌋ else ⌊x⌋ + 1

-- compute_hourly_snow_level: gate, estimate, absolute 3000 m cap, terrain
-- and station+1200 filters when terrain is known, then rounding to the
-- nearest 100 m (500 ft for us units); -1 is the not-applicable sentinel
-- (the ValueError of mismatched profile arrays is folded into it, its
-- caller nulls the snow level either way).
open Classical in
noncomputable def compute_hourly_snow_level (precipitation_mm : ℝ) (weather_code : ℤ)
    (temperature_c dewpoint_c location_elevation_m surface_pressure_hpa : ℝ)
    (pressures_hpa temps_c rhs_pct geop_heights_m : List ℝ)
    (units : String) (max_terrain_m : Option ℝ) (precip_adjust : Bool) : ℤ :=
  if ¬ should_check_snow_level precipitation_mm weather_code temperature_c then -1
  else
    match estimate_snow_level_msl location_elevation_m (surface_pressure_hpa * 100)
      temperature_c dewpoint_c pressures_hpa temps_c rhs_pct geop_heights_m
      0.5 (some precipitation_mm) precip_adjust with
    | none => -1
    | some m =>
      if m > 3000 then -1
      else
        match max_terrain_m with
        | some terrain =>
          if m > terrain - 300 then -1
          else if m > location_elevation_m + 1200 then -1
          else if units = "us" then pyRoundR ((m * 3.28084) / 500) * 500
          else pyRoundR (m / 100) * 100
        | none =>
          if units = "us" then pyRoundR ((m * 3.28084) / 500) * 500
          else pyRoundR (m / 100) * 100

/-- The profile-path glue of _build_member_record: a negative result is a
null snow level, a nonnegative one is kept. -/
noncomputable def profileSnowToLevel (profile_snow : ℤ) : Option ℝ :=
  if profile_snow < 0 then none else some (profile_snow : ℝ)

/-- The no-precipitation / freezing-level-below-station rejection of
_estimate_snow_level. -/
def fzlGate (precip alt : ℝ) (fzl : Option ℝ) : Prop :=
  precip = 0 ∨ (match fzl with | some f => f ≤ alt | none => False)

/-- The freezing-level cap of _estimate_snow_level: with a freezing level,
cap the first guess at freezing_level - 100. -/
noncomputable def snowLevelCap (freezing_level first_guess : Option ℝ) : Option ℝ :=
  match freezing_level, first_guess with
  | some f, some g => some (min g (f - 100))
  | some _, none => none
  | none, g => g

-- The final window and terrain filters of _estimate_snow_level.
open Classical in
noncomputable def snowLevelFilters (location_altitude : ℝ) (max_terrain_m : Option ℝ)
    (snow_level : Option ℝ) : Option ℝ :=
  match snow_level with
  | none => none
  | some s =>
    if s < location_altitude ∨ s > location_altitude + 3000 then none
    else
      match max_terrain_m with
      | some terrain => if s > terrain - 300 then none else some s
      | none => some s

-- _estimate_snow_level (dataset.py): freezing-level-based estimate with
-- lapse-rate projection, the fzl - 100 cap, the station window and the
-- terrain filter.  The lapse rate is clamped positive, so the lapse_rate
-- ≤ 0 fallback of first_guess is kept as the (unreachable) fzl branch.
open Classical in
noncomputable def estimate_snow_level (temperature dewpoint snowfall precipitation : ℝ)
    (freezing_level : Option ℝ) (location_altitude : ℝ) (weather_code : ℤ)
    (max_terrain_m : Option ℝ) : Option ℝ :=
  if ¬ should_check_snow_level precipitation weather_code temperature then none
  else
    let z := location_altitude
    let p_pa := 101325 * (max 0 (1 - 2.25577e-5 * z)) ^ (5.25588 : ℝ)
    let rh_pct := rh_from_T_Td temperature dewpoint
    let wet_bulb := wet_bulb_dj temperature rh_pct p_pa 1e-3
    let lapse_rate :=
      match freezing_level with
      | none => 0.0065
      | some f =>
        if |f - location_altitude| < 10 then 0.0065
        else max 0.001 (min 0.015 ((temperature - wet_bulb) / (f - location_altitude)))
    let first_guess : Option ℝ :=
      if lapse_rate > 0 then some ((wet_bulb - 1) / lapse_rate + location_altitude)
      else freezing_level
    if fzlGate precipitation location_altitude freezing_level then none
    else snowLevelFilters location_altitude max_terrain_m
      (snowLevelCap freezing_level first_guess)

/-- Python float round over the reals stays within half a unit. -/
theorem pyRoundR_pm_half (x : ℝ) :
    x - 1/2 ≤ (pyRoundR x : ℝ) ∧ (pyRoundR x : ℝ) ≤ x + 1/2 := by
  have h1 : (⌊x⌋ : ℝ) ≤ x := Int.floor_le x
  have h2 : x < (⌊x⌋ : ℝ) + 1 := Int.lt_floor_add_one x
  unfold pyRoundR
  split_ifs <;> constructor <;> push_cast <;> linarith

/-- At saturation wet_bulb_dj returns the dry-bulb temperature exactly. -/
theorem wet_bulb_dj_rh100 (Tc p tol : ℝ) : wet_bulb_dj Tc 100 p tol = Tc := by
  unfold wet_bulb_dj
  norm_num

/-- Relative humidity of a saturated parcel is exactly 100. -/
theorem rh_from_T_Td_self (T : ℝ) : rh_from_T_Td T T = 100 := by
  unfold rh_from_T_Td
  have he : esat_pa T ≠ 0 := by
    unfold esat_pa
    positivity
  rw [mul_div_assoc, div_self he, mul_one]
  norm_num

/-- The adjustment floor keeps the estimate at or above the station. -/
theorem snowAdjustFloor_ge (z : ℝ) (pr : Option ℝ) (sl : Option ℝ) (m : ℝ)
    (h : snowAdjustFloor z pr sl true = some m) : z ≤ m := by
  cases sl with
  | none => exact absurd h (by simp [snowAdjustFloor])
  | some s =>
    simp only [snowAdjustFloor] at h
    norm_num at h
    rw [← h]
    exact le_max_left _ _

/-- With the precipitation adjustment applied, the raw profile estimate is
at least the station altitude. -/
theorem estimate_snow_level_msl_ge (z p t td : ℝ) (ps ts rhs gs : List ℝ)
    (target : ℝ) (pr : Option ℝ) (m : ℝ)
    (h : estimate_snow_level_msl z p t td ps ts rhs gs target pr true = some m) :
    z ≤ m := by
  unfold estimate_snow_level_msl at h
  by_cases hlen : (ps.length = ts.length ∧ ts.length = rhs.length ∧
      rhs.length = gs.length)
  · rw [if_neg (not_not_intro hlen)] at h
    exact snowAdjustFloor_ge _ _ _ _ h
  · rw [if_pos hlen] at h
    exact absurd h (by simp)

/-- Bounds of the 100 m rounding of a value in [alt, 3000]. -/
theorem roundTo100_bounds (m alt : ℝ) (hge : alt ≤ m) (hle : m ≤ 3000) :
    alt - 50 ≤ ((pyRoundR (m / 100) * 100 : ℤ) : ℝ) ∧
      ((pyRoundR (m / 100) * 100 : ℤ) : ℝ) ≤ 3000 ∧
      ((pyRoundR (m / 100) * 100 : ℤ) : ℝ) ≤ m + 50 := by
  obtain ⟨hl, hu⟩ := pyRoundR_pm_half (m / 100)
  have h30 : pyRoundR (m / 100) ≤ 30 := by
    have hcast : (pyRoundR (m / 100) : ℝ) < ((31 : ℤ) : ℝ) := by
      push_cast
      have : m / 100 ≤ 30 := by linarith
      linarith
    have := Int.cast_lt.mp hcast
    omega
  refine ⟨?_, ?_, ?_⟩
  · push_cast
    nlinarith
  · have : ((pyRoundR (m / 100) * 100 : ℤ) : ℝ) ≤ ((3000 : ℤ) : ℝ) := by
      exact_mod_cast Int.mul_le_mul_of_nonneg_right h30 (by norm_num)
    simpa using this
  · push_cast
    nlinarith

/-- The freezing-level cap bounds the capped value. -/
theorem snowLevelCap_le_fzl (f : ℝ) (fg : Option ℝ) (s : ℝ)
    (h : snowLevelCap (some f) fg = some s) : s ≤ f - 100 := by
  cases fg with
  | none => exact absurd h (by simp [snowLevelCap])
  | some g =>
    simp only [snowLevelCap, Option.some_inj] at h
    rw [← h]
    exact min_le_right _ _

/-- The window and terrain filters only pass values inside their bounds. -/
theorem snowLevelFilters_bounds (alt : ℝ) (terrain : Option ℝ) (sl : Option ℝ) (s : ℝ)
    (h : snowLevelFilters alt terrain sl = some s) :
    alt ≤ s ∧ s ≤ alt + 3000 ∧ (∀ t, terrain = some t → s ≤ t - 300) ∧ sl = some s := by
  cases sl with
  | none => exact absurd h (by simp [snowLevelFilters])
  | some s0 =>
    simp only [snowLevelFilters] at h
    by_cases hw : s0 < alt ∨ s0 > alt + 3000
    · rw [if_pos hw] at h
      exact absurd h (by simp)
    · rw [if_neg hw] at h
      push_neg at hw
      cases terrain with
      | none =>
        dsimp only at h
        rw [Option.some_inj] at h
        subst h
        exact ⟨hw.1, hw.2, fun t ht => by simp at ht, rfl⟩
      | some t0 =>
        dsimp only at h
        by_cases hter : s0 > t0 - 300
        · rw [if_pos hter] at h
          exact absurd h (by simp)
        · rw [if_neg hter] at h
          rw [Option.some_inj] at h
          subst h
          refine ⟨hw.1, hw.2, fun t ht => ?_, rfl⟩
          rw [Option.some_inj] at ht
          subst ht
          linarith [not_lt.mp hter]

-- Bounds of the tail of _estimate_snow_level, for any first guess.
open Classical in
theorem estimate_tail_bounds (alt : ℝ) (terrain fzl fg : Option ℝ) (precip : ℝ) (s : ℝ)
    (h : (if fzlGate precip alt fzl then (none : Option ℝ)
      else snowLevelFilters alt terrain (snowLevelCap fzl fg)) = some s) :
    alt ≤ s ∧ s ≤ alt + 3000 ∧ (∀ t, terrain = some t → s ≤ t - 300) ∧
      (∀ f, fzl = some f → s ≤ f - 100) := by
  by_cases hc : fzlGate precip alt fzl
  · rw [if_pos hc] at h
    exact absurd h (by simp)
  · rw [if_neg hc] at h
    obtain ⟨h1, h2, h3, hsl⟩ := snowLevelFilters_bounds alt terrain _ s h
    refine ⟨h1, h2, h3, fun f hf => ?_⟩
    rw [hf] at hsl
    exact snowLevelCap_le_fzl f fg s hsl

/-- Every non-null freezing-level-path estimate respects the station
window, the terrain margin and the freezing-level cap. -/
theorem estimate_snow_level_bounds (temperature dewpoint snowfall precipitation : ℝ)
    (freezing_level : Option ℝ) (location_altitude : ℝ) (weather_code : ℤ)
    (max_terrain_m : Option ℝ) (s : ℝ)
    (h : estimate_snow_level temperature dewpoint snowfall precipitation freezing_level
        location_altitude weather_code max_terrain_m = some s) :
    location_altitude ≤ s ∧ s ≤ location_altitude + 3000 ∧
      (∀ t, max_terrain_m = some t → s ≤ t - 300) ∧
      (∀ f, freezing_level = some f → s ≤ f - 100) := by
  unfold estimate_snow_level at h
  by_cases hck : should_check_snow_level precipitation weather_code temperature
  · rw [if_neg (not_not_intro hck)] at h
    exact estimate_tail_bounds location_altitude max_terrain_m freezing_level _ _ s h
  · rw [if_pos hck] at h
    exact absurd h (by simp)

/-- Every applicable metric profile-path result (with the precipitation
adjustment, as called by the record builder) lies in
[station − 50 m, 3000 m] and at most terrain − 250 m. -/
theorem compute_hourly_snow_level_bounds (precipitation_mm : ℝ) (weather_code : ℤ)
    (temperature_c dewpoint_c alt sp : ℝ) (ps ts rhs gs : List ℝ)
    (terrain : Option ℝ) (r : ℤ)
    (hr : compute_hourly_snow_level precipitation_mm weather_code temperature_c dewpoint_c
        alt sp ps ts rhs gs "metric" terrain true = r)
    (hne : r ≠ -1) :
    alt - 50 ≤ (r : ℝ) ∧ (r : ℝ) ≤ 3000 ∧
      (∀ t, terrain = some t → (r : ℝ) ≤ t - 250) := by
  unfold compute_hourly_snow_level at hr
  by_cases hck : should_check_snow_level precipitation_mm weather_code temperature_c
  case neg =>
    rw [if_pos hck] at hr
    exact absurd hr.symm hne
  case pos =>
    rw [if_neg (not_not_intro hck)] at hr
    cases hm : estimate_snow_level_msl alt (sp * 100) temperature_c dewpoint_c ps ts rhs
        gs 0.5 (some precipitation_mm) true with
    | none =>
      rw [hm] at hr
      exact absurd hr.symm hne
    | some m =>
      rw [hm] at hr
      dsimp only at hr
      have hge := estimate_snow_level_msl_ge _ _ _ _ _ _ _ _ _ _ _ hm
      by_cases h3 : m > 3000
      · rw [if_pos h3] at hr
        exact absurd hr.symm hne
      · rw [if_neg h3] at hr
        push_neg at h3
        cases terrain with
        | none =>
          dsimp only at hr
          rw [if_neg (by decide)] at hr
          obtain ⟨b1, b2, b3⟩ := roundTo100_bounds m alt hge h3
          refine ⟨?_, ?_, fun t ht => by simp at ht⟩
          · rw [← hr]; exact b1
          · rw [← hr]; exact b2
        | some t0 =>
          dsimp only at hr
          by_cases hter : m > t0 - 300
          · rw [if_pos hter] at hr
            exact absurd hr.symm hne
          · rw [if_neg hter] at hr
            by_cases h12 : m > alt + 1200
            · rw [if_pos h12] at hr
              exact absurd hr.symm hne
            · rw [if_neg h12] at hr
              rw [if_neg (by decide)] at hr
              obtain ⟨b1, b2, b3⟩ := roundTo100_bounds m alt hge h3
              refine ⟨?_, ?_, fun t ht => ?_⟩
              · rw [← hr]; exact b1
              · rw [← hr]; exact b2
              · rw [Option.some_inj] at ht
                subst ht
                rw [← hr]
                push_neg at hter
                linarith

/-- Evaluation of the raw profile estimate at the counterexample input:
a saturated freezing surface parcel puts the estimate exactly at the
station altitude of 149 m. -/
theorem estimate_msl_eval :
    estimate_snow_level_msl 149 100000 (-2) (-2) [850] [-5] [100] [1500] 0.5
      (some 1) true = some 149 := by
  have hsorted : (([((149 : ℝ), (-2 : ℝ)), (1500, -5)]).mergeSort
      (fun a b => a.1 ≤ b.1)) = [(149, -2), (1500, -5)] := by
    apply List.mergeSort_of_sorted
    simp only [List.pairwise_cons]
    norm_num
  unfold estimate_snow_level_msl
  rw [if_neg (by norm_num)]
  simp only [rh_from_T_Td_self, wet_bulb_dj_rh100, List.zip_cons_cons,
    List.zip_nil_right, List.map_cons, List.map_nil]
  rw [hsorted]
  rw [show ((([((149 : ℝ), (-2 : ℝ)), (1500, -5)]).headD (0, 0)).2) = (-2 : ℝ) from rfl,
    show ((([((149 : ℝ), (-2 : ℝ)), (1500, -5)]).headD (0, 0)).1) = (149 : ℝ) from rfl]
  rw [if_pos (by norm_num : (-2 : ℝ) ≤ 0)]
  simp only [snowAdjustFloor, precipAdjustment]
  norm_num

/-- Evaluation of the profile path at the counterexample input: the
100 m rounding lands at 100 m, below the 149 m station. -/
theorem compute_hourly_eval :
    compute_hourly_snow_level 1 61 (-2) (-2) 149 1000 [850] [-5] [100] [1500]
      "metric" none true = 100 := by
  unfold compute_hourly_snow_level
  rw [if_neg (not_not_intro ⟨by norm_num, by decide, by norm_num⟩)]
  rw [show ((1000 : ℝ) * 100) = 100000 by norm_num]
  rw [estimate_msl_eval]
  dsimp only
  rw [if_neg (by norm_num : ¬ (149 : ℝ) > 3000), if_neg (by decide)]
  have : pyRoundR ((149 : ℝ) / 100) = 1 := by
    unfold pyRoundR
    norm_num
  rw [this]
  norm_num

/-- C7 counterexample: with precipitation 1 mm/h, code 61, T = Td = −2 °C,
station altitude 149 m, surface pressure 1000 hPa and one 850 hPa profile
level (−5 °C, 100 %, 1500 m), the pressure-profile path produces the
non-null snow level 100 m, strictly below the 149 m station altitude and
hence outside the claimed [station, station + 3000 m] window. -/
theorem snow_level_profile_counterexample :
    compute_hourly_snow_level 1 61 (-2) (-2) 149 1000 [850] [-5] [100] [1500]
      "metric" none true = 100 ∧
    profileSnowToLevel 100 = some 100 ∧ ((100 : ℝ) < 149) := by
  refine ⟨compute_hourly_eval, ?_, by norm_num⟩
  unfold profileSnowToLevel
  norm_num

/-- C7 (amended): the freezing-level path keeps every non-null snow level
within [station_altitude, station_altitude + 3000 m], at most
max-nearby-terrain − 300 m when terrain data is available, and capped at
freezing_level − 100 m; the pressure-profile path instead caps its raw
estimate at 3000 m absolute (not station-relative), floors it at the
station altitude, and then rounds to the nearest 100 m, so its non-null
values lie within [station_altitude − 50 m, 3000 m] and at most
terrain − 250 m, and can fall up to 50 m below the station altitude. -/
theorem snow_level_bounds_amended :
    (∀ (temperature dewpoint snowfall precipitation : ℝ) (freezing_level : Option ℝ)
      (location_altitude : ℝ) (weather_code : ℤ) (max_terrain_m : Option ℝ) (s : ℝ),
      estimate_snow_level temperature dewpoint snowfall precipitation freezing_level
          location_altitude weather_code max_terrain_m = some s →
      location_altitude ≤ s ∧ s ≤ location_altitude + 3000 ∧
        (∀ t, max_terrain_m = some t → s ≤ t - 300) ∧
        (∀ f, freezing_level = some f → s ≤ f - 100)) ∧
    (∀ (precipitation_mm : ℝ) (weather_code : ℤ)
      (temperature_c dewpoint_c alt sp : ℝ) (ps ts rhs gs : List ℝ)
      (terrain : Option ℝ) (r : ℤ),
      compute_hourly_snow_level precipitation_mm weather_code temperature_c dewpoint_c
          alt sp ps ts rhs gs "metric" terrain true = r →
      r ≠ -1 →
      alt - 50 ≤ (r : ℝ) ∧ (r : ℝ) ≤ 3000 ∧
        (∀ t, terrain = some t → (r : ℝ) ≤ t - 250)) :=
  ⟨fun t td sf pr fzl alt wx ter s h =>
      estimate_snow_level_bounds t td sf pr fzl alt wx ter s h,
    fun pmm wx tc dc alt sp ps ts rhs gs ter r hr hne =>
      compute_hourly_snow_level_bounds pmm wx tc dc alt sp ps ts rhs gs ter r hr hne⟩
